import Mathlib

/-!
Verification development for the multi-tenant back office's tenant-isolation
and dynamic-schema query layer.

The heart of the system is `TenantDatabase.executeInTenantSchema`
(src/src/config/database.ts), which derives a schema name `tenant_${tenantId}`
and splices it into SQL text with the JavaScript call
`query.replace(/\$\{schema\}/g, schemaName)`.  We embed that call exactly,
including JavaScript's interpretation of dollar sequences (`$$`, `$&`,
`` $` ``, `$'`) inside the replacement string, and we embed the surrounding
services (schema provisioning in `TenantService.initializeTenantSchema`,
task listing and deletion in `TasksService`, notification pagination in
`NotificationService.getUserNotifications`, and the dashboard aggregation in
`DashboardService.getDashboardMetrics`) as pure functions over explicit
store states.  Strings are modelled as `List Char`; the SQL store is modelled
as an explicit catalog of schemas and tables keyed by the schema qualifier
text that the expanded query carries.
-/

/-- The literal placeholder text matched by the regex `/\$\{schema\}/g` in
`TenantDatabase.executeInTenantSchema`. -/
def schemaPat : List Char := "${schema}".toList

/-- The schema name the query executor derives for a tenant:
`` const schemaName = `tenant_${this.tenantId}` ``
(src/src/config/database.ts, `TenantDatabase.executeInTenantSchema`). -/
def tenantSchemaName (tenantId : List Char) : List Char :=
  "tenant_".toList ++ tenantId

/-- JavaScript's expansion of the replacement string in `String.replace`:
`$$` yields a literal dollar, `$&` yields the matched text (here always the
placeholder `${schema}` itself), `` $` `` (dollar + backtick, character code
96) yields the portion of the subject before the match, `$'` (dollar +
apostrophe, character code 39) yields the portion after the match, and any
other dollar sequence is kept literally (the regex has no capture groups, so
`$1`, `$2`, ... are literal). `pre` and `post` are the subject portions
before and after the current match. -/
def expandDollar (pre post : List Char) : List Char → List Char
  | [] => []
  | ['$'] => ['$']
  | '$' :: d :: rest =>
      if d = '$' then '$' :: expandDollar pre post rest
      else if d = '&' then schemaPat ++ expandDollar pre post rest
      else if d.toNat = 96 then pre ++ expandDollar pre post rest
      else if d.toNat = 39 then post ++ expandDollar pre post rest
      else '$' :: d :: expandDollar pre post rest
  | c :: rest => c :: expandDollar pre post rest

/-- Left-to-right global scan of `query.replace(/\$\{schema\}/g, repl)`:
at each position, if the text starts with the nine characters `${schema}`
the match is replaced by the expanded replacement string and scanning
resumes after the match; otherwise one character is copied.  `pre`
accumulates the original text already scanned (needed for `` $` ``). -/
def replaceScan (repl : List Char) : List Char → List Char → List Char
  | pre, '$' :: '{' :: 's' :: 'c' :: 'h' :: 'e' :: 'm' :: 'a' :: '}' :: rest =>
      expandDollar pre rest repl ++ replaceScan repl (pre ++ schemaPat) rest
  | pre, c :: rest => c :: replaceScan repl (pre ++ [c]) rest
  | _, [] => []

/-- The SQL text actually sent to the store by
`TenantDatabase.executeInTenantSchema`:
`const finalQuery = query.replace(/\$\{schema\}/g, schemaName)`. -/
def executeInTenantSchema_finalQuery (tenantId query : List Char) : List Char :=
  replaceScan (tenantSchemaName tenantId) [] query

/-- Whether the text begins with the placeholder `${schema}`. -/
def startsPat : List Char → Bool
  | '$' :: '{' :: 's' :: 'c' :: 'h' :: 'e' :: 'm' :: 'a' :: '}' :: _ => true
  | _ => false

/-- Whether the placeholder `${schema}` occurs anywhere in the text. -/
def hasPat : List Char → Bool
  | [] => false
  | c :: rest => startsPat (c :: rest) || hasPat rest

/-- Decomposition of a template around its placeholder occurrences, following
the same scan as `replaceScan`: returns the leading placeholder-free chunk
and the list of chunks after each occurrence. -/
def splitPatAux : List Char → List Char × List (List Char)
  | '$' :: '{' :: 's' :: 'c' :: 'h' :: 'e' :: 'm' :: 'a' :: '}' :: rest =>
      ([], (splitPatAux rest).1 :: (splitPatAux rest).2)
  | c :: rest => (c :: (splitPatAux rest).1, (splitPatAux rest).2)
  | [] => ([], [])

/-- The chunks of a template between placeholder occurrences (a template with
N occurrences yields N + 1 chunks). -/
def splitPat (s : List Char) : List (List Char) :=
  (splitPatAux s).1 :: (splitPatAux s).2

/-- Join chunks with a fixed separator between consecutive chunks. -/
def joinWith (sep : List Char) : List (List Char) → List Char
  | [] => []
  | [x] => x
  | x :: y :: rest => x ++ sep ++ joinWith sep (y :: rest)

/-- The allow-list for schema identifiers stated by the specification:
alphanumeric characters and underscore. -/
def isSchemaSafeChar (c : Char) : Bool :=
  c.isAlphanum || c = '_'

/-- Modelled from the spec: the outbound SQL store (section 6) executes a
query inside the namespace named by the expanded schema qualifier; we model
its data as a map from (schema qualifier, table name) to the list of stored
rows (rows abstracted as `Nat`). -/
def TenantStore : Type := (List Char × List Char) → List Nat

/-- The schema qualifier text the store actually sees: the text
`String.replace` splices in place of a `${schema}` occurrence whose
surrounding query text is `pre`/`post` — that is, the dollar-expansion of the
replacement string `tenant_` + tenantId in that context.  For identifiers
containing no dollar sign this is exactly `tenantSchemaName tenantId`;
for others it can differ (and can even coincide for distinct identifiers,
e.g. `a$$b` and `a$b` both splice to `tenant_a$b`, since `$$` collapses to a
single dollar). -/
def splicedQualifier (tenantId pre post : List Char) : List Char :=
  expandDollar pre post (tenantSchemaName tenantId)

/-- An INSERT issued through `executeInTenantSchema` for tenant `tenantId`:
the store executes the expanded query text, so the write lands in the table
of the namespace named by the spliced qualifier text, where `pre`/`post` are
the query text surrounding the `${schema}` occurrence. -/
def insertIntoTenantSchema (tenantId table pre post : List Char) (row : Nat)
    (st : TenantStore) : TenantStore :=
  fun k =>
    if k = (splicedQualifier tenantId pre post, table) then st k ++ [row]
    else st k

/-- A SELECT issued through `executeInTenantSchema` for tenant `tenantId`:
the store executes the expanded query text, so the read targets the table of
the namespace named by the spliced qualifier text, where `pre`/`post` are the
query text surrounding the `${schema}` occurrence. -/
def selectFromTenantSchema (tenantId table pre post : List Char)
    (st : TenantStore) : List Nat :=
  st (splicedQualifier tenantId pre post, table)

/-- The schema name recorded on the tenant row at creation time:
`` schema_name: `tenant_${Date.now()}` `` (src/unnamed/part_005,
`TenantService.createTenant`), derived from the current clock value. -/
def createTenant_schemaName (now : Nat) : List Char :=
  "tenant_".toList ++ (toString now).toList

/-- The SQL store's catalog: the set of existing schemas, and the existing
tables with their rows (rows abstracted as `Nat`), keyed by
(schema name, table name). -/
structure PgCatalog where
  schemas : List (List Char)
  tables : List ((List Char × List Char) × List Nat)
  deriving DecidableEq

/-- Catalog lookup of a table's rows; `none` means the table does not exist. -/
def lookupTable (st : PgCatalog) (k : List Char × List Char) :
    Option (List Nat) :=
  (st.tables.find? (fun e => e.1 = k)).map (fun e => e.2)

/-- `CREATE SCHEMA IF NOT EXISTS "name"` (src/src/services/tenantService.ts,
`TenantService.createTenantSchema`). -/
def createSchemaIfNotExists (name : List Char) (st : PgCatalog) : PgCatalog :=
  if name ∈ st.schemas then st else { st with schemas := name :: st.schemas }

/-- `CREATE TABLE IF NOT EXISTS "schema".table (...)`: a no-op when the table
already exists, creates an empty table otherwise, and fails when the schema
does not exist. -/
def createTableIfNotExists (schema table : List Char) (st : PgCatalog) :
    Except Unit PgCatalog :=
  if schema ∈ st.schemas then
    match lookupTable st (schema, table) with
    | some _ => .ok st
    | none => .ok { st with tables := ((schema, table), []) :: st.tables }
  else .error ()

/-- The table set created for every tenant schema by
`TenantService.createTenantTables` (src/src/services/tenantService.ts). -/
def tenantTableNames : List (List Char) :=
  ["clients".toList, "projects".toList, "tasks".toList, "transactions".toList,
   "invoices".toList, "publications".toList]

/-- `TenantService.initializeTenantSchema` (src/src/services/tenantService.ts,
lines 16 to 59): create the schema, then create each tenant table in order,
all with IF NOT EXISTS semantics. -/
def initializeTenantSchema (schemaName : List Char) (st : PgCatalog) :
    Except Unit PgCatalog :=
  tenantTableNames.foldlM
    (fun acc t => createTableIfNotExists schemaName t acc)
    (createSchemaIfNotExists schemaName st)

/-- A row of a tenant's `tasks` table, reduced to the fields the claims are
about: its identifier and the soft-delete flag `is_active`. -/
structure TaskRow where
  id : Nat
  is_active : Bool
  deriving DecidableEq

/-- The store state seen by `TasksService`: the existing schemas and, per
schema, the `tasks` table when it has been created. -/
structure TasksDb where
  schemas : List (List Char)
  tasksTables : List (List Char × List TaskRow)
  deriving DecidableEq

/-- Lookup of a schema's `tasks` table; `none` means it does not exist. -/
def lookupTasksTable (db : TasksDb) (s : List Char) : Option (List TaskRow) :=
  (db.tasksTables.find? (fun e => e.1 = s)).map (fun e => e.2)

/-- `TasksService.initializeTables` (src/unnamed/part_006): runs
`CREATE TABLE IF NOT EXISTS ${schema}.tasks (...)` through the executor
(the index creations that follow do not change table data and are elided).
When the tenant's schema does not exist the CREATE TABLE statement fails at
the store. -/
def tasksService_initializeTables (db : TasksDb) (tenantId : List Char) :
    Except Unit TasksDb :=
  let s := tenantSchemaName tenantId
  if s ∈ db.schemas then
    match lookupTasksTable db s with
    | some _ => .ok db
    | none => .ok { db with tasksTables := (s, []) :: db.tasksTables }
  else .error ()

/-- The rows of a schema's tasks table, empty when it does not exist. -/
def tasksTableRows (db : TasksDb) (s : List Char) : List TaskRow :=
  (lookupTasksTable db s).getD []

/-- `TasksService.getTasks` (src/unnamed/part_006, lines 81 to 114): ensure
the table exists, run `SELECT * FROM ${schema}.tasks WHERE is_active = true
... LIMIT $1 OFFSET $2` together with the matching COUNT query, and on any
error return `{ tasks: [], total: 0 }` (the catch branch).  Row order stands
for the store's `ORDER BY created_at DESC`. -/
def tasksService_getTasks (db : TasksDb) (tenantId : List Char)
    (lim off : Nat) : TasksDb × (List TaskRow × Nat) :=
  match tasksService_initializeTables db tenantId with
  | .error _ => (db, ([], 0))
  | .ok db2 =>
    let rows := (tasksTableRows db2 (tenantSchemaName tenantId)).filter
      (fun r => r.is_active)
    (db2, ((rows.drop off).take lim, rows.length))

/-- `TasksService.deleteTask` (src/unnamed/part_006, lines 261 to 276):
`UPDATE ${schema}.tasks SET is_active = false WHERE id = $1 AND is_active =
true RETURNING 1`; returns whether any row was updated. -/
def tasksService_deleteTask (rows : List TaskRow) (taskId : Nat) :
    List TaskRow × Bool :=
  (rows.map (fun r =>
      if r.id = taskId ∧ r.is_active = true then { r with is_active := false }
      else r),
   (rows.filter (fun r => r.id = taskId ∧ r.is_active = true)).length > 0)

/-- `TenantDatabase.delete` (src/src/config/database.ts, lines 1048 to 1052):
`DELETE FROM ${schema}.table WHERE id = $1` — a physical delete. -/
def tenantDatabase_delete (rows : List TaskRow) (rowId : Nat) : List TaskRow :=
  rows.filter (fun r => ¬ r.id = rowId)

/-- The row set returned by the list query of `TasksService.getTasks`:
`WHERE is_active = true`. -/
def listActiveTasks (rows : List TaskRow) : List TaskRow :=
  rows.filter (fun r => r.is_active = true)

/-- Clients statistics shape (DashboardMetrics interface,
src/src/services/dashboardService.ts). -/
structure ClientsStats where
  total : Nat
  active : Nat
  inactive : Nat
  thisMonth : Nat
  deriving DecidableEq

/-- Projects statistics shape (DashboardMetrics interface). -/
structure ProjectsStats where
  total : Nat
  contacted : Nat
  proposal : Nat
  won : Nat
  lost : Nat
  thisMonth : Nat
  deriving DecidableEq

/-- Task statistics shape returned by `TasksService.getTaskStats`
(src/unnamed/part_006, lines 280 to 311). -/
structure TaskStats where
  total : Nat
  completed : Nat
  in_progress : Nat
  not_started : Nat
  urgent : Nat
  deriving DecidableEq

/-- Transactions statistics shape consumed by `getDashboardMetrics`. -/
structure TxStats where
  totalIncome : Nat
  totalExpense : Nat
  netAmount : Nat
  thisMonthIncome : Nat
  thisMonthExpense : Nat
  deriving DecidableEq

/-- Invoices statistics shape consumed by `getDashboardMetrics`. -/
structure InvoicesStats where
  total : Nat
  paid : Nat
  pending : Nat
  overdue : Nat
  deriving DecidableEq

/-- Publications statistics shape returned by
`PublicationsService.getPublicationsStats`
(src/src/services/publicationsService.ts). -/
structure PubStats where
  total : Nat
  novo : Nat
  lido : Nat
  arquivado : Nat
  thisMonth : Nat
  deriving DecidableEq

/-- The zero-valued task statistics returned by the catch branch of
`TasksService.getTaskStats`. -/
def zeroTaskStats : TaskStats := ⟨0, 0, 0, 0, 0⟩

/-- Zero-valued clients statistics. -/
def zeroClientsStats : ClientsStats := ⟨0, 0, 0, 0⟩

/-- Zero-valued projects statistics. -/
def zeroProjectsStats : ProjectsStats := ⟨0, 0, 0, 0, 0, 0⟩

/-- Zero-valued transactions statistics. -/
def zeroTxStats : TxStats := ⟨0, 0, 0, 0, 0⟩

/-- Zero-valued invoices statistics. -/
def zeroInvoicesStats : InvoicesStats := ⟨0, 0, 0, 0⟩

/-- The financial block of the dashboard metrics, flattened from the
`financialStats` object built in `getDashboardMetrics`. -/
structure FinancialStats where
  revenue : Nat
  expenses : Nat
  balance : Nat
  thisMonthRevenue : Nat
  thisMonthExpenses : Nat
  invoicesTotal : Nat
  invoicesPaid : Nat
  invoicesPending : Nat
  invoicesOverdue : Nat
  deriving DecidableEq

/-- The zero-valued financial block `getDashboardMetrics` starts from. -/
def zeroFinancialStats : FinancialStats := ⟨0, 0, 0, 0, 0, 0, 0, 0, 0⟩

/-- Account tiers (`accountType` in `getDashboardMetrics`). -/
inductive AccountType where
  | SIMPLES
  | COMPOSTA
  | GERENCIAL
  deriving DecidableEq

/-- The aggregated metrics object returned by `getDashboardMetrics`. -/
structure DashboardMetrics where
  financial : FinancialStats
  clients : ClientsStats
  projects : ProjectsStats
  tasks : TaskStats
  publications : PubStats
  deriving DecidableEq

/-- The outcome of each module's underlying store query during one dashboard
aggregation: either the statistics row it computed or a store error. -/
structure ModuleOutcomes where
  clients : Except Unit ClientsStats
  projects : Except Unit ProjectsStats
  tasks : Except Unit TaskStats
  transactions : Except Unit TxStats
  invoices : Except Unit InvoicesStats
  publications : Except Unit PubStats

/-- `TasksService.getTaskStats` (src/unnamed/part_006, lines 280 to 311):
returns the computed statistics, and on any store error catches it and
returns zeroed defaults. -/
def tasksService_getTaskStats (store : Except Unit TaskStats) : TaskStats :=
  match store with
  | .ok s => s
  | .error _ => zeroTaskStats

/-- Modelled from the spec: `clientsService.getClientsStats` is imported by
dashboardService.ts but its source is not under src/; per the error-handling
design (section 7) read-only aggregate paths catch store errors and degrade
to a zeroed default. -/
def clientsService_getClientsStats (store : Except Unit ClientsStats) :
    ClientsStats :=
  match store with
  | .ok s => s
  | .error _ => zeroClientsStats

/-- Modelled from the spec: `projectsService.getProjectsStats` is imported by
dashboardService.ts but its source is not under src/; it degrades to zeroed
defaults on store errors like the other module statistics calls. -/
def projectsService_getProjectsStats (store : Except Unit ProjectsStats) :
    ProjectsStats :=
  match store with
  | .ok s => s
  | .error _ => zeroProjectsStats

/-- Modelled from the spec: `transactionsService.getTransactionsStats` is
imported by dashboardService.ts but its source is not under src/; it degrades
to zeroed defaults on store errors. -/
def transactionsService_getTransactionsStats (store : Except Unit TxStats) :
    TxStats :=
  match store with
  | .ok s => s
  | .error _ => zeroTxStats

/-- Modelled from the spec: `invoicesService.getInvoicesStats` is imported by
dashboardService.ts but its source is not under src/; it degrades to zeroed
defaults on store errors. -/
def invoicesService_getInvoicesStats (store : Except Unit InvoicesStats) :
    InvoicesStats :=
  match store with
  | .ok s => s
  | .error _ => zeroInvoicesStats

/-- `PublicationsService.getPublicationsStats`
(src/src/services/publicationsService.ts, lines 279 to 309): no catch — a
store error propagates to the caller. -/
def publicationsService_getPublicationsStats (store : Except Unit PubStats) :
    Except Unit PubStats :=
  store

/-- The financial block computed by `getDashboardMetrics`: zeroed for
SIMPLES accounts; for COMPOSTA and GERENCIAL, filled from the transactions
and invoices statistics calls. -/
def financialStatsFor (acct : AccountType) (tx : Except Unit TxStats)
    (inv : Except Unit InvoicesStats) : FinancialStats :=
  match acct with
  | .SIMPLES => zeroFinancialStats
  | _ =>
    let t := transactionsService_getTransactionsStats tx
    let i := invoicesService_getInvoicesStats inv
    ⟨t.totalIncome, t.totalExpense, t.netAmount, t.thisMonthIncome,
     t.thisMonthExpense, i.total, i.paid, i.pending, i.overdue⟩

/-- `DashboardService.getDashboardMetrics`
(src/src/services/dashboardService.ts, lines 78 to 141): fans out to the
module statistics calls, builds the financial block according to the account
tier, and assembles the metrics object.  Its own try/catch rethrows, so an
error escaping a module statistics call (only possible for publications,
whose service does not catch) fails the whole aggregation. -/
def dashboardService_getDashboardMetrics (acct : AccountType)
    (o : ModuleOutcomes) : Except Unit DashboardMetrics :=
  let cs := clientsService_getClientsStats o.clients
  let ps := projectsService_getProjectsStats o.projects
  let ts := tasksService_getTaskStats o.tasks
  let fin := financialStatsFor acct o.transactions o.invoices
  match publicationsService_getPublicationsStats o.publications with
  | .error e => .error e
  | .ok pubs => .ok ⟨fin, cs, ps, ts, pubs⟩

/-- A row of a tenant's `notifications` table, reduced to the fields used by
`getUserNotifications` (the `type` column is abstracted as a number). -/
structure NotificationRow where
  user_id : Nat
  ntype : Nat
  read : Bool
  title : List Char
  message : List Char
  is_active : Bool
  deriving DecidableEq

/-- The filters accepted by `NotificationService.getUserNotifications`
(src/unnamed/part_005, lines 440 to 516). -/
structure NotificationFilters where
  ftype : Option Nat
  read : Option Bool
  search : Option (List Char)
  page : Option Nat
  limit : Option Nat

/-- JavaScript `value || default` on an optional number: `undefined` and `0`
are falsy. -/
def jsOr (v : Option Nat) (d : Nat) : Nat :=
  match v with
  | none => d
  | some n => if n = 0 then d else n

/-- Whether `needle` is a prefix of `hay`, character by character. -/
def isPrefixL : List Char → List Char → Bool
  | [], _ => true
  | _ :: _, [] => false
  | a :: as, b :: bs => a = b && isPrefixL as bs

/-- Whether `needle` occurs as a contiguous run inside `hay`. -/
def hasSub (needle : List Char) : List Char → Bool
  | [] => needle.isEmpty
  | c :: rest => isPrefixL needle (c :: rest) || hasSub needle rest

/-- The `ILIKE '%search%'` test on a column: case-insensitive containment. -/
def likeContains (needle hay : List Char) : Bool :=
  hasSub (needle.map Char.toLower) (hay.map Char.toLower)

/-- The WHERE clause built by `getUserNotifications`: `is_active = TRUE AND
user_id = $1`, plus the optional type, read and search conditions, combined
with AND (shared verbatim by the rows query and the count query). -/
def notificationMatches (uid : Nat) (f : NotificationFilters)
    (n : NotificationRow) : Bool :=
  n.is_active && n.user_id == uid &&
  (match f.ftype with | none => true | some t => n.ntype == t) &&
  (match f.read with | none => true | some r => n.read == r) &&
  (match f.search with
   | none => true
   | some s => likeContains s n.title || likeContains s n.message)

/-- The pagination envelope returned by `getUserNotifications`. -/
structure PaginatedNotifications where
  notifications : List NotificationRow
  page : Nat
  limit : Nat
  total : Nat
  totalPages : Nat
  hasNext : Bool
  hasPrev : Bool
  deriving DecidableEq

/-- `NotificationService.getUserNotifications` (src/unnamed/part_005, lines
440 to 516): default page 1 and limit 20, offset = (page - 1) * limit, rows
query `... LIMIT limit OFFSET offset` and count query over the same WHERE
clause, totalPages = ceil(total / limit).  `rows` is the content of the
tenant schema's notifications table; row order stands for the store's
`ORDER BY created_at DESC`. -/
def getUserNotifications (rows : List NotificationRow) (uid : Nat)
    (f : NotificationFilters) : PaginatedNotifications :=
  let page := jsOr f.page 1
  let lim := jsOr f.limit 20
  let off := (page - 1) * lim
  let matched := rows.filter (notificationMatches uid f)
  let total := matched.length
  let totalPages := (total + lim - 1) / lim
  { notifications := (matched.drop off).take lim,
    page := page, limit := lim, total := total, totalPages := totalPages,
    hasNext := page < totalPages, hasPrev := page > 1 }

theorem expandDollar_of_not_dollar (pre post repl : List Char)
    (h : '$' ∉ repl) : expandDollar pre post repl = repl := by
  induction repl with
  | nil => rfl
  | cons c rest ih =>
    have hc : c ≠ '$' := fun hc => h (hc ▸ List.mem_cons_self c rest)
    have hrest : '$' ∉ rest := fun hm => h (List.mem_cons_of_mem _ hm)
    rw [expandDollar.eq_4 pre post c rest (fun h1 _ => hc h1)
      (fun _ _ h1 _ => hc h1), ih hrest]

theorem joinWith_cons_head (sep : List Char) (c : Char) (h : List Char)
    (t : List (List Char)) :
    joinWith sep ((c :: h) :: t) = c :: joinWith sep (h :: t) := by
  cases t <;> simp [joinWith]

theorem join_split (s : List Char) : joinWith schemaPat (splitPat s) = s := by
  unfold splitPat
  induction s using splitPatAux.induct with
  | case1 rest ih =>
    rw [splitPatAux.eq_1]
    simp only [joinWith, List.nil_append]
    rw [ih]
    rfl
  | case2 c rest hne ih =>
    rw [splitPatAux.eq_2 c rest hne, joinWith_cons_head, ih]
  | case3 => rfl

theorem replaceScan_expansion (repl : List Char) (h : '$' ∉ repl)
    (pre s : List Char) :
    replaceScan repl pre s = joinWith repl (splitPat s) := by
  unfold splitPat
  induction pre, s using replaceScan.induct repl with
  | case1 pre rest ih =>
    rw [replaceScan.eq_1, splitPatAux.eq_1,
      expandDollar_of_not_dollar _ _ _ h, ih]
    simp [joinWith]
  | case2 pre c rest hne ih =>
    rw [replaceScan.eq_2 repl pre c rest hne, splitPatAux.eq_2 c rest hne,
      joinWith_cons_head, ih]
  | case3 pre => rfl

theorem startsPat_eq_true_iff (s : List Char) :
    startsPat s = true ↔ ∃ r, s = schemaPat ++ r := by
  constructor
  · intro h
    rw [startsPat.eq_def] at h
    split at h
    · exact ⟨_, rfl⟩
    · exact absurd h (by simp)
  · rintro ⟨r, rfl⟩
    rfl

theorem splitPatAux_head_prefix (s : List Char) :
    ∃ x, (splitPatAux s).1 ++ x = s := by
  induction s using splitPatAux.induct with
  | case1 rest ih =>
    rw [splitPatAux.eq_1]
    exact ⟨_, rfl⟩
  | case2 c rest hne ih =>
    rw [splitPatAux.eq_2 c rest hne]
    obtain ⟨x, hx⟩ := ih
    exact ⟨x, by simp [hx]⟩
  | case3 => exact ⟨[], rfl⟩

theorem splitPatAux_patFree (s : List Char) :
    hasPat (splitPatAux s).1 = false ∧
      ∀ c ∈ (splitPatAux s).2, hasPat c = false := by
  induction s using splitPatAux.induct with
  | case1 rest ih =>
    rw [splitPatAux.eq_1]
    refine ⟨rfl, ?_⟩
    intro c hc
    rcases List.mem_cons.1 hc with hc | hc
    · exact hc ▸ ih.1
    · exact ih.2 c hc
  | case2 c rest hne ih =>
    rw [splitPatAux.eq_2 c rest hne]
    refine ⟨?_, ih.2⟩
    have hsp : startsPat (c :: (splitPatAux rest).1) = false := by
      cases hs : startsPat (c :: (splitPatAux rest).1) with
      | false => rfl
      | true =>
        obtain ⟨r, hr⟩ := (startsPat_eq_true_iff _).1 hs
        obtain ⟨x, hx⟩ := splitPatAux_head_prefix rest
        have hfull : c :: rest = schemaPat ++ (r ++ x) := by
          have : (c :: (splitPatAux rest).1) ++ x = c :: rest := by simp [hx]
          rw [← this, hr, List.append_assoc]
        simp only [schemaPat, String.toList] at hfull
        have hc1 : c = '$' := by
          have := congrArg (fun l => l.headI) hfull
          simpa using this
        have hc2 : rest = '{' :: 's' :: 'c' :: 'h' :: 'e' :: 'm' :: 'a' ::
            '}' :: (r ++ x) := by
          have := congrArg (fun l => l.tail) hfull
          simpa using this
        exact (hne (r ++ x) hc1 hc2).elim
    simp only [hasPat, hsp, Bool.false_or]
    exact ih.1
  | case3 => exact ⟨rfl, by intro c hc; cases hc⟩

theorem tenantSchemaName_not_dollar (tenantId : List Char)
    (h : '$' ∉ tenantId) : '$' ∉ tenantSchemaName tenantId := by
  unfold tenantSchemaName
  intro hm
  rcases List.mem_append.1 hm with hm | hm
  · exact absurd hm (by decide)
  · exact h hm

/-- Claim C1 (counterexample): isolation fails for the distinct tenant
identifiers `a$$b` and `a$b` — String.replace collapses `$$` in the
replacement string to a single dollar, so both identifiers yield the
byte-identical final query text (here for the clients list query), the store
receives the very same `prisma.$queryRawUnsafe` call for either tenant, and a
row inserted on behalf of `a$$b` is returned by the query executed on behalf
of `a$b` (the spliced qualifier collides on `tenant_a$b`, a valid unquoted
Postgres identifier). -/
theorem C1_counterexample :
    "a$$b".toList ≠ "a$b".toList
      ∧ executeInTenantSchema_finalQuery "a$$b".toList
          "SELECT * FROM ${schema}.clients WHERE is_active = true".toList
        = executeInTenantSchema_finalQuery "a$b".toList
            "SELECT * FROM ${schema}.clients WHERE is_active = true".toList
      ∧ selectFromTenantSchema "a$b".toList "clients".toList
          "SELECT * FROM ".toList ".clients WHERE is_active = true".toList
          (insertIntoTenantSchema "a$$b".toList "clients".toList
            "INSERT INTO ".toList ".clients (id) VALUES ($1)".toList 7
            ((fun _ => []) : TenantStore))
        = [7] :=
  ⟨by decide, by decide, by decide⟩

/-- Claim C1 (amended): for tenant identifiers A and B containing no dollar
sign and with A ≠ B, a row inserted through the tenant-scoped query executor
on behalf of A is never returned by a query executed on behalf of B,
whatever query text surrounds the placeholder in either statement — for
dollar-free identifiers the spliced qualifier is exactly `tenant_` + own id,
and that derivation is injective, so B's reads see an unchanged table.  For
identifiers containing dollar sequences the spliced qualifiers of distinct
tenants can coincide, defeating isolation. -/
theorem C1_dollar_free_isolation (a b table : List Char) (hab : a ≠ b)
    (ha : '$' ∉ a) (hb : '$' ∉ b)
    (preI postI preS postS : List Char) (st : TenantStore) (row : Nat) :
    selectFromTenantSchema b table preS postS
        (insertIntoTenantSchema a table preI postI row st)
      = selectFromTenantSchema b table preS postS st := by
  unfold selectFromTenantSchema insertIntoTenantSchema
  rw [if_neg]
  intro hk
  apply hab
  have h1 : splicedQualifier b preS postS = splicedQualifier a preI postI :=
    congrArg Prod.fst hk
  unfold splicedQualifier at h1
  rw [expandDollar_of_not_dollar _ _ _ (tenantSchemaName_not_dollar _ hb),
    expandDollar_of_not_dollar _ _ _ (tenantSchemaName_not_dollar _ ha)] at h1
  exact (List.append_cancel_left h1).symm

theorem C1_dollar_free_isolation_witness :
    ("alice".toList ≠ "bob".toList) ∧ ('$' ∉ "alice".toList)
      ∧ ('$' ∉ "bob".toList) ∧
      selectFromTenantSchema "bob".toList "clients".toList
          "SELECT * FROM ".toList ".clients".toList
          (insertIntoTenantSchema "alice".toList "clients".toList
            "INSERT INTO ".toList ".clients (id) VALUES ($1)".toList 7
            ((fun _ => []) : TenantStore))
        = selectFromTenantSchema "bob".toList "clients".toList
            "SELECT * FROM ".toList ".clients".toList
            ((fun _ => []) : TenantStore) :=
  ⟨by decide, by decide, by decide,
   C1_dollar_free_isolation "alice".toList "bob".toList "clients".toList
     (by decide) (by decide) (by decide) "INSERT INTO ".toList
     ".clients (id) VALUES ($1)".toList "SELECT * FROM ".toList
     ".clients".toList ((fun _ => []) : TenantStore) 7⟩

/-- Claim C2 (counterexample): the claim fails for a tenant identifier
containing the JavaScript replacement pattern `` $` `` (dollar + backtick):
on the template `${schema}${schema}` the two occurrences receive different
substituted texts (`tenant_` and `tenant_${schema}`), so the result is not of
the form r ++ r for any single substitution r, although a uniform
substitution into this two-placeholder template would have that form. -/
theorem C2_counterexample :
    executeInTenantSchema_finalQuery ("$".toList ++ [Char.ofNat 96])
        (schemaPat ++ schemaPat) = ("tenant_tenant_".toList ++ schemaPat)
      ∧ ¬ ∃ r : List Char,
          executeInTenantSchema_finalQuery ("$".toList ++ [Char.ofNat 96])
            (schemaPat ++ schemaPat) = r ++ r := by
  refine ⟨by decide, ?_⟩
  rintro ⟨r, hr⟩
  have h1 : (executeInTenantSchema_finalQuery ("$".toList ++ [Char.ofNat 96])
      (schemaPat ++ schemaPat)).length = 23 := by decide
  rw [hr] at h1
  simp only [List.length_append] at h1
  omega

/-- Claim C2 (amended): for every template and every tenant identifier
containing no dollar sign, expansion replaces each of the N placeholder
occurrences with the same substituted schema text `tenant_` + id — the result
is the template's chunks joined by that text, the chunks reassemble to the
original template when joined by the placeholder itself, and no chunk
contains the placeholder; in particular the chunks, and with them every
positional parameter placeholder `$1`, `$2`, ..., are left unchanged. -/
theorem C2_template_expansion (query tenantId : List Char)
    (h : '$' ∉ tenantId) :
    executeInTenantSchema_finalQuery tenantId query
        = joinWith (tenantSchemaName tenantId) (splitPat query)
      ∧ joinWith schemaPat (splitPat query) = query
      ∧ (splitPat query).all (fun c => !hasPat c) = true := by
  refine ⟨replaceScan_expansion _ (tenantSchemaName_not_dollar _ h) _ _,
    join_split query, ?_⟩
  rw [List.all_eq_true]
  intro c hc
  unfold splitPat at hc
  rcases List.mem_cons.1 hc with hc | hc
  · simp [hc, (splitPatAux_patFree query).1]
  · simp [(splitPatAux_patFree query).2 c hc]

theorem C2_template_expansion_witness :
    ('$' ∉ "abc123".toList) ∧
      (executeInTenantSchema_finalQuery "abc123".toList
          "SELECT * FROM ${schema}.tasks WHERE id = $1".toList
        = joinWith (tenantSchemaName "abc123".toList)
            (splitPat "SELECT * FROM ${schema}.tasks WHERE id = $1".toList)
      ∧ joinWith schemaPat
            (splitPat "SELECT * FROM ${schema}.tasks WHERE id = $1".toList)
          = "SELECT * FROM ${schema}.tasks WHERE id = $1".toList
      ∧ (splitPat "SELECT * FROM ${schema}.tasks WHERE id = $1".toList).all
          (fun c => !hasPat c) = true) :=
  ⟨by decide, C2_template_expansion
    "SELECT * FROM ${schema}.tasks WHERE id = $1".toList "abc123".toList
    (by decide)⟩

/-- Claim C3: the executor performs no validation of the schema identifier.
Evaluating it at a tenant identifier far outside the allow-list (spaces,
semicolons, dashes) shows the identifier spliced verbatim into the raw SQL
text — the template is neither rejected nor passed through unexpanded, so a
user-influenced tenant identifier can inject SQL through the schema name. -/
theorem C3_no_identifier_validation :
    ("x; DROP SCHEMA public; --".toList.all isSchemaSafeChar = false)
      ∧ executeInTenantSchema_finalQuery "x; DROP SCHEMA public; --".toList
          "SELECT * FROM ${schema}.clients WHERE id = $1".toList
        = "SELECT * FROM tenant_x; DROP SCHEMA public; --.clients WHERE id = $1".toList
      ∧ executeInTenantSchema_finalQuery "x; DROP SCHEMA public; --".toList
          "SELECT * FROM ${schema}.clients WHERE id = $1".toList
        ≠ "SELECT * FROM ${schema}.clients WHERE id = $1".toList :=
  ⟨by decide, by decide, by decide⟩

/-- Claim C4: the schema name the executor routes to (`tenant_` + tenant id)
equals the schema name recorded at creation (`tenant_` + Date.now()) exactly
when the tenant id is the decimal text of the creation clock value — which a
store-generated id such as a cuid is not, so for such tenants the two schema
names differ and queries are routed into a schema that was never the one
recorded for the tenant. -/
theorem C4_recorded_vs_routed_schema :
    (∀ tenantId : List Char, ∀ now : Nat,
        tenantSchemaName tenantId = createTenant_schemaName now
          ↔ tenantId = (toString now).toList)
      ∧ tenantSchemaName "cmel7abc0001xkq9".toList
          ≠ createTenant_schemaName 1755000000000 :=
  ⟨fun tenantId now =>
    ⟨fun h => List.append_cancel_left h,
     fun h => by unfold tenantSchemaName createTenant_schemaName; rw [h]⟩,
   by decide⟩

/-- Claim C10: for every tenant identifier containing no dollar sign, the
expansion splices exactly `tenant_` + id in place of each `${schema}`
placeholder; and for the identifier `$&` the spliced text differs from
`tenant_$&`, because String.replace interprets dollar sequences in the
replacement string (`$&` re-inserts the matched placeholder). -/
theorem C10_dollar_sequences :
    (∀ query tenantId : List Char, '$' ∉ tenantId →
        executeInTenantSchema_finalQuery tenantId query
          = joinWith (tenantSchemaName tenantId) (splitPat query))
      ∧ executeInTenantSchema_finalQuery "$&".toList schemaPat
          = "tenant_".toList ++ schemaPat
      ∧ executeInTenantSchema_finalQuery "$&".toList schemaPat
          ≠ tenantSchemaName "$&".toList :=
  ⟨fun query tenantId h =>
    replaceScan_expansion _ (tenantSchemaName_not_dollar _ h) _ _,
   by decide, by decide⟩

/-- Claim C5 (counterexample): for a tenant whose schema does not exist,
`TasksService.getTasks` neither provisions the schema nor surfaces an error:
the CREATE TABLE attempt fails, the catch branch swallows the failure, the
store state is returned unchanged, and the caller receives the successful
empty result { tasks: [], total: 0 }. -/
theorem C5_counterexample :
    tasksService_getTasks ⟨[], []⟩ "t1".toList 50 0
      = (⟨[], []⟩, ([], 0)) := by decide

/-- Claim C5 (amended): whenever the schema derived for the tenant does not
exist, `TasksService.getTasks` attempts lazy creation of the table only (not
the schema), catches the resulting store error, and silently returns the
empty successful result { tasks: [], total: 0 } with the store unchanged —
rather than provisioning the schema or failing with a distinct
tenant-not-initialized error. -/
theorem C5_missing_schema_silent_empty (db : TasksDb) (tenantId : List Char)
    (lim off : Nat) (h : tenantSchemaName tenantId ∉ db.schemas) :
    tasksService_getTasks db tenantId lim off = (db, ([], 0)) := by
  unfold tasksService_getTasks tasksService_initializeTables
  simp [h]

theorem C5_missing_schema_silent_empty_witness :
    (tenantSchemaName "t9".toList ∉ (⟨[], []⟩ : TasksDb).schemas) ∧
      tasksService_getTasks ⟨[], []⟩ "t9".toList 20 40 = (⟨[], []⟩, ([], 0)) :=
  ⟨by decide,
   C5_missing_schema_silent_empty ⟨[], []⟩ "t9".toList 20 40 (by decide)⟩

theorem createTable_ok_inv (schema table : List Char) (st st2 : PgCatalog)
    (h : createTableIfNotExists schema table st = .ok st2) :
    st2.schemas = st.schemas
      ∧ (∃ r, lookupTable st2 (schema, table) = some r)
      ∧ (∀ k r, lookupTable st k = some r → lookupTable st2 k = some r) := by
  unfold createTableIfNotExists at h
  by_cases hs : schema ∈ st.schemas
  · rw [if_pos hs] at h
    cases hl : lookupTable st (schema, table) with
    | some r =>
      rw [hl] at h
      cases h
      exact ⟨rfl, ⟨r, hl⟩, fun k r2 h2 => h2⟩
    | none =>
      rw [hl] at h
      cases h
      refine ⟨rfl, ⟨[], ?_⟩, ?_⟩
      · simp [lookupTable, List.find?]
      · intro k r2 h2
        by_cases hk : ((schema, table) : List Char × List Char) = k
        · rw [← hk] at h2
          rw [h2] at hl
          cases hl
        · unfold lookupTable at h2 ⊢
          simp only [List.find?]
          rw [decide_eq_false hk]
          exact h2
  · rw [if_neg hs] at h
    cases h

theorem foldl_createTables_inv (schema : List Char) (ts : List (List Char)) :
    ∀ (st st2 : PgCatalog),
      ts.foldlM (fun acc t => createTableIfNotExists schema t acc) st
          = .ok st2 →
      st2.schemas = st.schemas
        ∧ (∀ t ∈ ts, ∃ r, lookupTable st2 (schema, t) = some r)
        ∧ (∀ k r, lookupTable st k = some r → lookupTable st2 k = some r) := by
  induction ts with
  | nil =>
    intro st st2 h
    simp only [List.foldlM_nil] at h
    cases h
    exact ⟨rfl, by simp, fun k r h2 => h2⟩
  | cons t ts ih =>
    intro st st2 h
    rw [List.foldlM_cons] at h
    cases hc : createTableIfNotExists schema t st with
    | error e => rw [hc] at h; cases h
    | ok st1 =>
      rw [hc] at h
      obtain ⟨hS1, hT1, hP1⟩ := createTable_ok_inv _ _ _ _ hc
      obtain ⟨hS2, hT2, hP2⟩ := ih st1 st2 h
      refine ⟨hS2.trans hS1, ?_, fun k r h2 => hP2 _ _ (hP1 _ _ h2)⟩
      intro u hu
      rcases List.mem_cons.1 hu with rfl | hu
      · obtain ⟨r, hr⟩ := hT1
        exact ⟨r, hP2 _ _ hr⟩
      · exact hT2 u hu

theorem createTable_rerun (schema t : List Char) (st : PgCatalog)
    (hs : schema ∈ st.schemas) (r : List Nat)
    (hl : lookupTable st (schema, t) = some r) :
    createTableIfNotExists schema t st = .ok st := by
  unfold createTableIfNotExists
  rw [if_pos hs, hl]

theorem foldl_createTables_rerun (schema : List Char) (ts : List (List Char)) :
    ∀ st : PgCatalog, schema ∈ st.schemas →
      (∀ t ∈ ts, ∃ r, lookupTable st (schema, t) = some r) →
      ts.foldlM (fun acc t => createTableIfNotExists schema t acc) st
        = .ok st := by
  induction ts with
  | nil => intro st _ _; rfl
  | cons t ts ih =>
    intro st hs hT
    rw [List.foldlM_cons]
    obtain ⟨r, hr⟩ := hT t (List.mem_cons_self t ts)
    rw [createTable_rerun schema t st hs r hr]
    exact ih st hs (fun u hu => hT u (List.mem_cons_of_mem t hu))

theorem createSchema_mem (n : List Char) (st : PgCatalog) :
    n ∈ (createSchemaIfNotExists n st).schemas := by
  unfold createSchemaIfNotExists
  split
  · assumption
  · exact List.mem_cons_self n st.schemas

theorem createSchema_of_mem (n : List Char) (st : PgCatalog)
    (h : n ∈ st.schemas) : createSchemaIfNotExists n st = st := by
  unfold createSchemaIfNotExists
  rw [if_pos h]

theorem lookupTable_createSchema (n : List Char) (st : PgCatalog)
    (k : List Char × List Char) :
    lookupTable (createSchemaIfNotExists n st) k = lookupTable st k := by
  unfold createSchemaIfNotExists lookupTable
  split <;> rfl

/-- Claim C6: the schema provisioner is idempotent — when a run succeeds, a
second run against the resulting state returns exactly that state (every
statement hits its IF NOT EXISTS no-op path), and a run never alters the rows
of any table that already existed, so re-running is safe at any time without
data loss. -/
theorem C6_provisioner_idempotent (st st2 : PgCatalog)
    (schemaName : List Char)
    (h : initializeTenantSchema schemaName st = .ok st2) :
    initializeTenantSchema schemaName st2 = .ok st2
      ∧ st.tables.all
          (fun e => lookupTable st2 e.1 == lookupTable st e.1) = true := by
  unfold initializeTenantSchema at h ⊢
  obtain ⟨hS, hT, hP⟩ := foldl_createTables_inv schemaName tenantTableNames _ _ h
  have hmem : schemaName ∈ st2.schemas := by
    rw [hS]
    exact createSchema_mem schemaName st
  rw [createSchema_of_mem _ _ hmem]
  refine ⟨foldl_createTables_rerun _ _ _ hmem hT, ?_⟩
  rw [List.all_eq_true]
  intro e he
  have hsome : (lookupTable st e.1).isSome := by
    unfold lookupTable
    rw [Option.isSome_map', List.find?_isSome]
    exact ⟨e, he, by simp⟩
  obtain ⟨r, hr⟩ := Option.isSome_iff_exists.1 hsome
  have := hP e.1 r (by
    have h2 : lookupTable (createSchemaIfNotExists schemaName st) e.1
        = lookupTable st e.1 := lookupTable_createSchema _ _ _
    rw [h2, hr])
  simp [this, hr]

theorem C6_provisioner_idempotent_witness :
    (initializeTenantSchema "tenant_t1".toList ⟨[], []⟩
        = .ok ⟨["tenant_t1".toList],
            [(("tenant_t1".toList, "publications".toList), []),
             (("tenant_t1".toList, "invoices".toList), []),
             (("tenant_t1".toList, "transactions".toList), []),
             (("tenant_t1".toList, "tasks".toList), []),
             (("tenant_t1".toList, "projects".toList), []),
             (("tenant_t1".toList, "clients".toList), [])]⟩)
      ∧ (initializeTenantSchema "tenant_t1".toList
            ⟨["tenant_t1".toList],
             [(("tenant_t1".toList, "publications".toList), []),
              (("tenant_t1".toList, "invoices".toList), []),
              (("tenant_t1".toList, "transactions".toList), []),
              (("tenant_t1".toList, "tasks".toList), []),
              (("tenant_t1".toList, "projects".toList), []),
              (("tenant_t1".toList, "clients".toList), [])]⟩
          = .ok ⟨["tenant_t1".toList],
             [(("tenant_t1".toList, "publications".toList), []),
              (("tenant_t1".toList, "invoices".toList), []),
              (("tenant_t1".toList, "transactions".toList), []),
              (("tenant_t1".toList, "tasks".toList), []),
              (("tenant_t1".toList, "projects".toList), []),
              (("tenant_t1".toList, "clients".toList), [])]⟩
         ∧ (⟨[], []⟩ : PgCatalog).tables.all
             (fun e => lookupTable
                 ⟨["tenant_t1".toList],
                  [(("tenant_t1".toList, "publications".toList), []),
                   (("tenant_t1".toList, "invoices".toList), []),
                   (("tenant_t1".toList, "transactions".toList), []),
                   (("tenant_t1".toList, "tasks".toList), []),
                   (("tenant_t1".toList, "projects".toList), []),
                   (("tenant_t1".toList, "clients".toList), [])]⟩ e.1
               == lookupTable ⟨[], []⟩ e.1) = true) :=
  ⟨rfl, C6_provisioner_idempotent ⟨[], []⟩
    ⟨["tenant_t1".toList],
     [(("tenant_t1".toList, "publications".toList), []),
      (("tenant_t1".toList, "invoices".toList), []),
      (("tenant_t1".toList, "transactions".toList), []),
      (("tenant_t1".toList, "tasks".toList), []),
      (("tenant_t1".toList, "projects".toList), []),
      (("tenant_t1".toList, "clients".toList), [])]⟩
    "tenant_t1".toList rfl⟩

/-- Claim C7 (counterexample): when exactly the publications statistics call
fails (all other modules succeed), the whole dashboard aggregation fails
instead of returning a metrics object with zeroed publications —
`PublicationsService.getPublicationsStats` has no catch and
`getDashboardMetrics` rethrows. -/
theorem C7_counterexample :
    dashboardService_getDashboardMetrics .GERENCIAL
      ⟨.ok ⟨1, 1, 0, 0⟩, .ok ⟨2, 1, 1, 0, 0, 0⟩, .ok ⟨3, 1, 1, 1, 0⟩,
       .ok ⟨4, 2, 2, 1, 1⟩, .ok ⟨5, 3, 1, 1⟩, .error ()⟩ = .error () := rfl

/-- Claim C7 (amended): when exactly one of the clients, projects, tasks,
transactions or invoices statistics calls fails, the dashboard aggregation
still returns a fully populated metrics object in which the failing module's
metrics are zeroed defaults (the module services catch the store error and
degrade); a publications failure, by contrast, fails the whole aggregate. -/
theorem C7_partial_failure_tolerance (acct : AccountType)
    (c : ClientsStats) (p : ProjectsStats) (t : TaskStats) (tx : TxStats)
    (i : InvoicesStats) (pub : PubStats) :
    tasksService_getTaskStats (.error ()) = zeroTaskStats
      ∧ dashboardService_getDashboardMetrics acct
          ⟨.error (), .ok p, .ok t, .ok tx, .ok i, .ok pub⟩
        = .ok ⟨financialStatsFor acct (.ok tx) (.ok i), zeroClientsStats,
            p, t, pub⟩
      ∧ dashboardService_getDashboardMetrics acct
          ⟨.ok c, .error (), .ok t, .ok tx, .ok i, .ok pub⟩
        = .ok ⟨financialStatsFor acct (.ok tx) (.ok i), c,
            zeroProjectsStats, t, pub⟩
      ∧ dashboardService_getDashboardMetrics acct
          ⟨.ok c, .ok p, .error (), .ok tx, .ok i, .ok pub⟩
        = .ok ⟨financialStatsFor acct (.ok tx) (.ok i), c, p,
            zeroTaskStats, pub⟩
      ∧ dashboardService_getDashboardMetrics acct
          ⟨.ok c, .ok p, .ok t, .error (), .ok i, .ok pub⟩
        = .ok ⟨financialStatsFor acct (.error ()) (.ok i), c, p, t, pub⟩
      ∧ transactionsService_getTransactionsStats (.error ()) = zeroTxStats
      ∧ dashboardService_getDashboardMetrics acct
          ⟨.ok c, .ok p, .ok t, .ok tx, .error (), .ok pub⟩
        = .ok ⟨financialStatsFor acct (.ok tx) (.error ()), c, p, t, pub⟩
      ∧ invoicesService_getInvoicesStats (.error ()) = zeroInvoicesStats :=
  ⟨rfl, rfl, rfl, rfl, rfl, rfl, rfl, rfl⟩

theorem jsOr_pos (v : Option Nat) (d : Nat) (hd : 0 < d) : 0 < jsOr v d := by
  unfold jsOr
  cases v with
  | none => exact hd
  | some n =>
    by_cases hn : n = 0
    · simp [hn]; exact hd
    · simp [hn]; omega

theorem jsOr_some_succ (k d : Nat) : jsOr (some (k + 1)) d = k + 1 := by
  simp [jsOr]

theorem page_sum (L p : Nat) :
    ∀ l : List NotificationRow, l.length ≤ p * L →
      (∑ k ∈ Finset.range p, ((l.drop (k * L)).take L).length) = l.length := by
  induction p with
  | zero =>
    intro l hl
    simp only [Nat.zero_mul, Nat.le_zero, List.length_eq_zero] at hl
    simp [hl]
  | succ p ih =>
    intro l hl
    rw [Finset.sum_range_succ']
    have hdrop : ∀ k : Nat, l.drop ((k + 1) * L) = (l.drop L).drop (k * L) := by
      intro k
      rw [List.drop_drop]
      congr 1
      ring
    simp only [hdrop]
    have hlen : (l.drop L).length ≤ p * L := by
      rw [List.length_drop]
      have hm : (p + 1) * L = p * L + L := by ring
      omega
    rw [ih (l.drop L) hlen]
    rw [Nat.zero_mul, List.drop_zero, List.length_take, List.length_drop]
    omega

theorem ceil_div_mul_ge (n L : Nat) (hL : 0 < L) :
    n ≤ ((n + L - 1) / L) * L := by
  have h1 := Nat.div_add_mod (n + L - 1) L
  have h2 := Nat.mod_lt (n + L - 1) hL
  rw [Nat.mul_comm]
  omega

/-- Claim C8: iterating `NotificationService.getUserNotifications` over pages
1, 2, ... up to the reported totalPages, with a fixed filter and a fixed row
set, yields pages whose lengths sum to exactly the total the service returns
alongside the rows — page and limit are mapped to offset = (page-1)*limit and
LIMIT limit, and the count query shares the rows query's WHERE clause. -/
theorem C8_pagination_exhaustive (rows : List NotificationRow) (uid : Nat)
    (f : NotificationFilters) :
    (∑ k ∈ Finset.range (getUserNotifications rows uid f).totalPages,
        ((getUserNotifications rows uid
            { f with page := some (k + 1) }).notifications).length)
      = (getUserNotifications rows uid f).total := by
  have hL : 0 < jsOr f.limit 20 := jsOr_pos f.limit 20 (by omega)
  unfold getUserNotifications
  simp only [jsOr_some_succ, Nat.add_sub_cancel]
  exact page_sum (jsOr f.limit 20) _ _
    (ceil_div_mul_ge (rows.filter (notificationMatches uid f)).length
      (jsOr f.limit 20) hL)

/-- Claim C9 (counterexample): the repository layer does contain an operation
that physically removes a previously inserted row: the generic
`TenantDatabase.delete` issues `DELETE FROM ${schema}.table WHERE id = $1`,
erasing the row entirely, whereas `TasksService.deleteTask` on the same table
only clears the `is_active` flag. -/
theorem C9_counterexample :
    tenantDatabase_delete [⟨1, true⟩] 1 = ([] : List TaskRow)
      ∧ (tasksService_deleteTask [⟨1, true⟩] 1).1 = [⟨1, false⟩] :=
  ⟨by decide, by decide⟩

/-- Claim C9 (amended): `TasksService.deleteTask` is a soft delete — it
preserves the number of rows and their identifiers, flipping only the
`is_active` flag — and the task list query filters on `is_active = true`, so
a deleted task no longer appears in listings; but the generic
`TenantDatabase.delete` helper performs a physical DELETE. -/
theorem C9_soft_delete (rows : List TaskRow) (tid : Nat) :
    ((tasksService_deleteTask rows tid).1).length = rows.length
      ∧ ((tasksService_deleteTask rows tid).1).map (fun r => r.id)
          = rows.map (fun r => r.id)
      ∧ (listActiveTasks ((tasksService_deleteTask rows tid).1)).all
          (fun r => r.is_active && !(r.id == tid)) = true := by
  unfold tasksService_deleteTask listActiveTasks
  refine ⟨by simp, ?_, ?_⟩
  · rw [List.map_map]
    apply List.map_congr_left
    intro r _
    by_cases h : r.id = tid ∧ r.is_active = true
    · simp [h]
    · simp [h]
  · rw [List.all_eq_true]
    intro r hr
    rw [List.mem_filter] at hr
    obtain ⟨hmem, hact⟩ := hr
    rw [List.mem_map] at hmem
    obtain ⟨r0, hr0, rfl⟩ := hmem
    by_cases h : r0.id = tid ∧ r0.is_active = true
    · simp [h] at hact
    · simp only [h, if_false] at hact ⊢
      simp only [decide_eq_true_eq] at hact
      have hid : r0.id ≠ tid := by
        intro hid
        exact h ⟨hid, hact⟩
      simp [hact, hid]
